import Mathlib

/-
Verification of the ifcpatch core module (src/ifcpatch/ifcpatch/__init__.py)
against its natural-language specification.

The module is embedded shallowly:

* Python values that can flow through the module (docstring defaults,
  constructor arguments, patcher attributes) are the inductive `PyVal`.
* Python exceptions are the inductive `PyErr`; fallible code returns
  `Except PyErr _`.
* Python string primitives used by the module (`str.split`, `str.strip`,
  `str.startswith`, `str.replace` with empty replacement) are implemented
  structurally over `List Char` so that every definition is executable and
  kernel-reducible.
* The dynamic parts that live outside this file (recipe modules on disk,
  patcher classes) are embedded as explicit data: a `Recipe` carries its
  declared input policy, the presence of a docstring on its constructor and
  the behaviour of construction-plus-patch as a pure function; a `Module`
  carries its classes, a `Cls` its methods, a `Method` its parameters with
  inspected defaults and resolved type hints and its docstring.  Recipe
  internal exceptions are outside the model: recipes are trusted,
  uninstrumented collaborators whose failures the engine never catches.
-/

set_option autoImplicit false

namespace IfcPatch

/-! ## Python values and exceptions -/

/-- Python values relevant to the embedded module: `None`, strings, ints,
bools, floats (kept opaque, identified by their literal text) and
`ifcopenshell.file` document handles (identified by an id). -/
inductive PyVal where
  | none
  | str (s : String)
  | int (n : Int)
  | bool (b : Bool)
  | float (lit : String)
  | doc (id : Nat)
deriving DecidableEq, Repr

/-- Python exceptions that the embedded module can raise or catch. -/
inductive PyErr where
  | valueError (msg : String)
  | attributeError (msg : String)
  | indexError
  | moduleNotFoundError (msg : String)
  | otherError (msg : String)
deriving DecidableEq, Repr

/-- The check `isinstance(x, (str, float, int, bool))` performed on
parameter defaults in `_extract_docs`. -/
def isPrimitiveScalar : PyVal → Bool
  | .str _ => true
  | .int _ => true
  | .bool _ => true
  | .float _ => true
  | _ => false

/-! ## Python string primitives, structural over `List Char` -/

/-- Characters stripped by Python `str.strip()`. -/
def isPySpace (c : Char) : Bool :=
  c = ' ' || c = '\t' || c = '\n' || c = '\r' || c = '\x0b' || c = '\x0c'

/-- Python `str.strip()` on a character list. -/
def pyStripChars (cs : List Char) : List Char :=
  ((cs.dropWhile isPySpace).reverse.dropWhile isPySpace).reverse

/-- Python `str.strip()`. -/
def pyStrip (s : String) : String :=
  String.mk (pyStripChars s.toList)

/-- Python `str.split(sep)` for a one-character separator, on character
lists: splits at every occurrence of the separator, keeping empty fields. -/
def pyCharsSplit (sep : Char) : List Char → List (List Char)
  | [] => [[]]
  | c :: rest =>
    let r := pyCharsSplit sep rest
    if c = sep then [] :: r
    else
      match r with
      | [] => [[c]]
      | g :: gs => (c :: g) :: gs

/-- Python `str.split(sep)` for a one-character separator. -/
def pySplit (sep : Char) (s : String) : List String :=
  (pyCharsSplit sep s.toList).map (fun cs => String.mk cs)

/-- Python `str.startswith(pre)`. -/
def pyStartsWith (pre s : String) : Bool :=
  pre.toList.isPrefixOf s.toList

/-- Fuel-driven core of Python `str.replace(pat, "")`: removes every
non-overlapping occurrence of `pat`, scanning left to right.  The fuel is
always instantiated to the length of the text, which suffices because every
step consumes at least one character of a non-empty text. -/
def removeAllAux : Nat → List Char → List Char → List Char
  | 0, _, cs => cs
  | _, _, [] => []
  | fuel + 1, pat, c :: rest =>
    if pat.isPrefixOf (c :: rest) then
      removeAllAux fuel pat ((c :: rest).drop pat.length)
    else
      c :: removeAllAux fuel pat rest

/-- Python `s.replace(pat, "")`: every occurrence of `pat` removed. -/
def pyRemoveAll (pat s : String) : String :=
  String.mk (removeAllAux s.toList.length pat.toList s.toList)

/-! ## Execution engine: `execute` and `get_patch_input_argument_use`

Embeds lines 45-114 of the source.  An `Args` value models the
`ArgumentsDict` the caller passes to `execute`; optional dict keys are
`Option` fields whose outer `none` means the key is absent.  The `file`
entry is doubly optional: the key may be absent, or present and mapped to
Python `None` instead of a real document handle (the `TypedDict` does not
stop a caller from storing `None` there, and the code only tests key
presence). -/

/-- The `Literal["REQUIRED", "SUPPORTED", "IGNORED"]` input policy. -/
inductive InputPolicy where
  | REQUIRED
  | SUPPORTED
  | IGNORED
deriving DecidableEq, Repr

/-- The `ArgumentsDict` passed to `execute`.  `file` is `some v` when the
key is present, with `v` the document id or `Option.none` for a Python
`None` value under the key. -/
structure Args where
  recipe : String
  file : Option (Option Nat) := Option.none
  input : Option String := Option.none
  log : Option String := Option.none
  arguments : Option (List PyVal) := Option.none

/-- How the caller-supplied positional `arguments` list reaches the
`Patcher` constructor: spread into individual positional parameters
(`*arguments`) or passed as one single list-valued parameter. -/
inductive ArgsPassing where
  | spread (arguments : List PyVal)
  | listArg (arguments : List PyVal)
deriving DecidableEq, Repr

/-- The observable constructor call `recipe.Patcher(input, file, logger, ...)`
made by `execute`. -/
structure CtorCall where
  input : Option String
  file : Option Nat
  logger : String
  argsPassing : ArgsPassing
deriving DecidableEq, Repr

/-- The attributes of a patcher instance after `patcher.patch()` ran:
`file_patched` is `some v` when the instance exposes that attribute, and
`file` is `some v` when the instance exposes the original document
attribute. -/
structure PatcherOutcome where
  file_patched : Option PyVal := Option.none
  file : Option PyVal := Option.none

/-- A resolved recipe: its class-level `input_argument` attribute (absent
attribute modelled as `Option.none`), whether `Patcher.__init__.__doc__` is
a docstring or Python `None`, and the combined behaviour of
`Patcher.__init__` plus `patcher.patch()` as a pure function from the
constructor call to the final instance attributes. -/
structure Recipe where
  input_argument : Option InputPolicy
  initDoc : Option String
  run : CtorCall → PatcherOutcome

/-- Embeds `get_patch_input_argument_use` (source lines 110-114):
`getattr(recipe_module.Patcher, "input_argument", "IGNORED")`. -/
def get_patch_input_argument_use (r : Recipe) : InputPolicy :=
  r.input_argument.getD .IGNORED

/-- Truthiness of `args.get("input")`: falsy exactly when the key is absent
(so `get` returns `None`) or the stored path is the empty string. -/
def inputFalsy (i : Option String) : Bool :=
  match i with
  | Option.none => true
  | some s => s = ""

/-- The constructor call built by `execute` (source lines 100-104):
`args.get("input")`, `args.get("file")` (key absent and key mapped to
`None` both give `None`), the `"IFCPatch"` logger, and the positional
`arguments` spread exactly when `Patcher.__init__.__doc__ is not None`. -/
def mkCtorCall (r : Recipe) (args : Args) : CtorCall :=
  { input := args.input
    file := args.file.join
    logger := "IFCPatch"
    argsPassing :=
      if r.initDoc.isSome then .spread (args.arguments.getD [])
      else .listArg (args.arguments.getD []) }

/-- Result extraction from the patcher instance (source line 106):
`getattr(patcher, "file_patched", patcher.file)`.  Python evaluates the
default argument `patcher.file` eagerly, before `getattr` looks up
`file_patched`: an instance lacking the `file` attribute therefore raises
`AttributeError` even when `file_patched` is present; only when the `file`
attribute exists does `getattr` yield `file_patched` when exposed and the
default otherwise. -/
def extractOutput (p : PatcherOutcome) : Except PyErr PyVal :=
  match p.file with
  | Option.none => .error (PyErr.attributeError "file")
  | some dflt =>
    match p.file_patched with
    | some v => .ok v
    | Option.none => .ok dflt

/-- Instantiation, patching and result extraction (source lines 100-107). -/
def runRecipe (r : Recipe) (args : Args) : Except PyErr PyVal :=
  extractOutput (r.run (mkCtorCall r args))

/-- Embeds `execute` (source lines 86-107) from the point where the recipe
is resolved: the validation rule on lines 92-98 followed by instantiation,
patching and result extraction.  Logging configuration (lines 86-88) has no
bearing on the returned value and is not modelled. -/
def execute (r : Recipe) (args : Args) : Except PyErr PyVal :=
  if get_patch_input_argument_use r = .REQUIRED then
    if inputFalsy args.input then
      .error (.valueError ("Recipe " ++ args.recipe ++
        " is requiring input argument to be provided."))
    else runRecipe r args
  else if args.file.isSome then runRecipe r args
  else
    .error (.valueError ("Recipe " ++ args.recipe ++
      " is requiring file argument to be provided."))

/-! ## Output writer: `write`

Embeds lines 117-140 of the source.  The filesystem is an association list
from paths to file contents; `shutil.move` and plain text writing act on
it.  The serialization a document handle performs in `output.write(filepath)`
is recipe-defined, so `write` is parametrised by that capability. -/

/-- A filesystem: an association list from paths to file contents. -/
def FS := List (String × String)

/-- Path lookup in the filesystem. -/
def fsLookup : FS → String → Option String
  | [], _ => Option.none
  | (k, v) :: rest, p => if k = p then some v else fsLookup rest p

/-- Embeds `os.path.exists`. -/
def fsExists (fs : FS) (p : String) : Bool :=
  (fsLookup fs p).isSome

/-- Removal of a path from the filesystem. -/
def fsErase : FS → String → FS
  | [], _ => []
  | (k, v) :: rest, p => if k = p then fsErase rest p else (k, v) :: fsErase rest p

/-- Creation or overwrite of the file at `p` with content `c`
(`open(filepath, "w")` followed by `text_file.write(content)`). -/
def fsSet (fs : FS) (p c : String) : FS :=
  (p, c) :: fsErase fs p

/-- Embeds `shutil.move(src, dst)` for an existing regular file `src`. -/
def fsMove (fs : FS) (src dst : String) : FS :=
  match fsLookup fs src with
  | some c => fsSet (fsErase fs src) dst c
  | Option.none => fs

/-- The `Union[ifcopenshell.file, str]` output of a patch, or `None`. -/
inductive Output where
  | none
  | str (s : String)
  | doc (id : Nat)
deriving DecidableEq, Repr

/-- Embeds `write` (source lines 117-140).  `docWriter` is the
serialization capability `output.write` of a document handle. -/
def write (docWriter : Nat → String → FS → FS) (output : Output)
    (filepath : String) (fs : FS) : FS :=
  match output with
  | .none => fs
  | .str s => if fsExists fs s then fsMove fs s filepath else fsSet fs filepath s
  | .doc d => docWriter d filepath fs

/-! ## Schema extractor: `extract_docs` and `_extract_docs`

Embeds lines 143-229 of the source.  A resolved static type hint, as
`typing.get_type_hints` returns it, is a `TypeHint`; an un-annotated
parameter has no entry in the hints dictionary, modelled by
`Option.none` at the parameter. -/

/-- A resolved static type hint.  `generic` is a `types.GenericAlias`
such as `list[str]` (its parameter list is never empty, so the first
argument is carried separately); `union` is a `typing._UnionGenericAlias`;
`literal` is `typing.Literal[...]` with its admitted values; `plain` is any
other hint, known by its `__name__`. -/
inductive TypeHint where
  | plain (name : String)
  | union (members : List TypeHint)
  | literal (items : List PyVal)
  | generic (containerName : String) (arg0 : TypeHint) (rest : List TypeHint)

/-- The `__name__` attribute of a hint object. -/
def TypeHint.pyName : TypeHint → String
  | .plain n => n
  | .union _ => "Union"
  | .literal _ => "Literal"
  | .generic n _ _ => n

/-- The values `typing.get_args` yields on the hint reaching the
`Literal` branch (non-literal hints there yield an empty tuple). -/
def TypeHint.literalArgs : TypeHint → List PyVal
  | .literal items => items
  | _ => []

/-- The value stored under the `"type"` key of a parameter entry: a single
type name or the ordered list of the member type names of a union. -/
inductive TypeField where
  | single (name : String)
  | multiple (names : List String)
deriving DecidableEq, Repr

/-- One entry of the `inputs` ordered dictionary built by
`_extract_docs`; absent dictionary keys are `Option.none` fields. -/
structure InputEntry where
  name : String
  default : Option PyVal := Option.none
  generic_type : Option String := Option.none
  type : Option TypeField := Option.none
  enum_items : Option (List PyVal) := Option.none
  description : Option String := Option.none
  filter_glob : Option String := Option.none
deriving DecidableEq, Repr

/-- One parameter of an inspected signature: its name, its inspected
default (`Option.none` models `inspect.Parameter.empty`, `some PyVal.none`
a literal `None` default) and its resolved type hint, when any. -/
structure Param where
  name : String
  default : Option PyVal := Option.none
  hint : Option TypeHint := Option.none

/-- An introspected method: its parameters in declaration order and its
`__doc__`. -/
structure Method where
  params : List Param
  doc : Option String := Option.none

/-- An introspected class: its name-indexed methods. -/
structure Cls where
  methods : List (String × Method)

/-- A loaded module: its name-indexed classes. -/
structure Module where
  classes : List (String × Cls)

/-- Embeds `getattr` on a method table: first binding of the name. -/
def findMethod : List (String × Method) → String → Option Method
  | [], _ => Option.none
  | (k, v) :: rest, n => if k = n then some v else findMethod rest n

/-- Embeds `getattr` on a class table: first binding of the name. -/
def findCls : List (String × Cls) → String → Option Cls
  | [], _ => Option.none
  | (k, v) :: rest, n => if k = n then some v else findCls rest n

/-- The signature loop filter (source lines 175-177): parameters named
`self` or listed in `boilerplate_args` are skipped. -/
def retainedParams (boilerplate : List String) (ps : List Param) : List Param :=
  ps.filter (fun p => decide (p.name ≠ "self" ∧ p.name ∉ boilerplate))

/-- The branch chain of source lines 195-201 on the (possibly already
unwrapped) hint: a union yields the list of member names under `"type"`, a
hint named `Literal` yields the `Literal` marker plus its values, and
anything else yields its plain `__name__`. -/
def applyUnwrapped (e : InputEntry) (h1 : TypeHint) : InputEntry :=
  match h1 with
  | .union ms => { e with type := some (.multiple (ms.map TypeHint.pyName)) }
  | h1 =>
    if h1.pyName = "Literal" then
      { e with type := some (.single "Literal"), enum_items := some h1.literalArgs }
    else
      { e with type := some (.single h1.pyName) }

/-- The type-hint normalization of source lines 189-201, producing the
`"generic_type"`, `"type"` and `"enum_items"` keys of one entry: a
parameterized container first records its name under `"generic_type"` and
is unwrapped to its first argument (`typing.get_args(type_hint)[0]`); the
branch chain of lines 195-201 then applies to the resulting hint. -/
def normalizeHint (e : InputEntry) (h : TypeHint) : InputEntry :=
  match h with
  | .generic n a0 _ => applyUnwrapped { e with generic_type := some n } a0
  | _ => applyUnwrapped e h

/-- The entry built for one retained parameter by the two loops of source
lines 175-201, fused per parameter: the name, the default captured only
when `isinstance(default, (str, float, int, bool))`, and the normalized
type-hint keys when the parameter has a resolved hint. -/
def mkEntry (p : Param) : InputEntry :=
  let base : InputEntry :=
    { name := p.name
      default :=
        match p.default with
        | some v => if isPrimitiveScalar v then some v else Option.none
        | Option.none => Option.none }
  match p.hint with
  | some h => normalizeHint base h
  | Option.none => base

/-- State threaded through the docstring loop of source lines 207-225:
the title (`docs["name"]`), the output descriptor, the accumulated
free-text description and the `inputs` entries. -/
structure ParseState where
  title : Option String := Option.none
  output : Option (String × String) := Option.none
  desc : String := ""
  inputs : List InputEntry := []
deriving DecidableEq, Repr

/-- Membership test `param_name in inputs` on the ordered dictionary. -/
def knownParam (inputs : List InputEntry) (n : String) : Bool :=
  inputs.any (fun e => e.name == n)

/-- Dictionary update `inputs[n]["description"] = d`. -/
def setDescription (inputs : List InputEntry) (n d : String) : List InputEntry :=
  inputs.map (fun e => if e.name = n then { e with description := some d } else e)

/-- Dictionary update `inputs[n]["filter_glob"] = g`. -/
def setFilterGlob (inputs : List InputEntry) (n g : String) : List InputEntry :=
  inputs.map (fun e => if e.name = n then { e with filter_glob := some g } else e)

/-- One iteration of the docstring loop (source lines 207-225) at line
index `i`.  List subscripts beyond the end of the colon-split field list
raise `IndexError`, which no handler in the module catches. -/
def stepLine (st : ParseState) (i : Nat) (rawLine : String) : Except PyErr ParseState :=
  let line := pyStrip rawLine
  if i = 0 then .ok { st with title := some line }
  else if pyStartsWith ":return:" line then
    let fields := pySplit ':' line
    match fields.get? 2, fields.get? 3 with
    | some n, some d => .ok { st with output := some (pyStrip n, pyStrip d) }
    | _, _ => .error PyErr.indexError
  else if pyStartsWith ":param" line then
    let fields := pySplit ':' line
    match fields.get? 1 with
    | Option.none => .error PyErr.indexError
    | some f1 =>
      let pname := pyRemoveAll "param " (pyStrip f1)
      if knownParam st.inputs pname then
        match fields.get? 2 with
        | some f2 => .ok { st with inputs := setDescription st.inputs pname (pyStrip f2) }
        | Option.none => .error PyErr.indexError
      else .ok st
  else if pyStartsWith ":filter_glob" line then
    let fields := pySplit ':' line
    match fields.get? 1 with
    | Option.none => .error PyErr.indexError
    | some f1 =>
      let pname := pyRemoveAll "filter_glob " (pyStrip f1)
      if knownParam st.inputs pname then
        match fields.get? 2 with
        | some f2 => .ok { st with inputs := setFilterGlob st.inputs pname (pyStrip f2) }
        | Option.none => .error PyErr.indexError
      else .ok st
  else if i = 2 then .ok { st with desc := st.desc ++ line }
  else if 2 < i then .ok { st with desc := st.desc ++ "\n" ++ line }
  else .ok st

/-- The docstring loop `for i, line in enumerate(doc.split("\n"))`,
starting at line index `i`. -/
def foldLines (st : ParseState) (i : Nat) : List String → Except PyErr ParseState
  | [] => .ok st
  | l :: rest =>
    match stepLine st i l with
    | .ok st2 => foldLines st2 (i + 1) rest
    | .error e => .error e

/-- The dictionary `_extract_docs` returns: the class, the docstring
title (`"name"`), the free-text description, the output descriptor and the
parameter entries.  Keys set only when the method has a docstring are
`Option` fields. -/
structure Docs where
  cls : Cls
  name : Option String := Option.none
  description : Option String := Option.none
  output : Option (String × String) := Option.none
  inputs : List InputEntry := []

/-- Embeds `_extract_docs` (source lines 167-229): method lookup (a
missing method raises `AttributeError`), the signature and type-hint loops
building `inputs`, then the docstring loop. -/
def _extract_docs (cls : Cls) (method_name : String)
    (boilerplate_args : Option (List String)) : Except PyErr Docs :=
  match findMethod cls.methods method_name with
  | Option.none => .error (PyErr.attributeError method_name)
  | some method =>
    let bp := boilerplate_args.getD []
    let inputs := (retainedParams bp method.params).map mkEntry
    match method.doc with
    | Option.none => .ok { cls := cls, inputs := inputs }
    | some doc =>
      match foldLines { inputs := inputs } 0 (pySplit '\n' doc) with
      | .error e => .error e
      | .ok st =>
        .ok { cls := cls, name := st.title,
              description := some (pyStrip st.desc),
              output := st.output, inputs := st.inputs }

/-- The body of the outer `try` of `extract_docs` (source lines 158-162):
`getattr(submodule, cls_name)` (raising `AttributeError` when the class is
absent) followed by `_extract_docs`. -/
def extract_docs_attempt (m : Module) (cls_name method_name : String)
    (boilerplate_args : Option (List String)) : Except PyErr Docs :=
  match findCls m.classes cls_name with
  | Option.none => .error (PyErr.attributeError cls_name)
  | some c => _extract_docs c method_name boilerplate_args

/-- Embeds `extract_docs` (source lines 143-164).  The outcome of
locating and executing the recipe module file (lines 153-158) is the
`load` argument, since the module file itself lives outside this
repository slice.  The function catches exactly `ModuleNotFoundError`
around module execution and `AttributeError` around introspection (an
inner `ModuleNotFoundError` is also caught by the outer handler); each
caught exception prints a diagnostic and the function then returns Python
`None`, modelled as `.ok Option.none`.  Every other exception propagates
to the caller. -/
def extract_docs (load : Except PyErr Module) (cls_name method_name : String)
    (boilerplate_args : Option (List String)) : Except PyErr (Option Docs) :=
  match load with
  | .error (PyErr.moduleNotFoundError _) => .ok Option.none
  | .error e => .error e
  | .ok m =>
    match extract_docs_attempt m cls_name method_name boilerplate_args with
    | .ok d => .ok (some d)
    | .error (PyErr.attributeError _) => .ok Option.none
    | .error (PyErr.moduleNotFoundError _) => .ok Option.none
    | .error e => .error e

/-! ## Helper lemmas about the execution engine -/

/-- Instantiation, patching and result extraction can raise only
`AttributeError`, never a `ValueError`: recipe-internal behaviour is a pure
function in this model and the only raise on the result path is the missing
`file` attribute. -/
lemma runRecipe_no_valueError (r : Recipe) (args : Args) (msg : String) :
    runRecipe r args ≠ .error (PyErr.valueError msg) := by
  unfold runRecipe extractOutput
  cases hf : (r.run (mkCtorCall r args)).file with
  | none => simp
  | some w =>
    cases hfp : (r.run (mkCtorCall r args)).file_patched with
    | some v => simp
    | none => simp

/-- Canonical case split of `execute`: the `REQUIRED` validation failure,
the `SUPPORTED`/`IGNORED` validation failure, or the run of the recipe. -/
lemma execute_cases (r : Recipe) (args : Args) :
    (get_patch_input_argument_use r = .REQUIRED ∧ inputFalsy args.input = true ∧
      execute r args = .error (.valueError ("Recipe " ++ args.recipe ++
        " is requiring input argument to be provided.")))
    ∨ (get_patch_input_argument_use r ≠ .REQUIRED ∧ args.file = Option.none ∧
      execute r args = .error (.valueError ("Recipe " ++ args.recipe ++
        " is requiring file argument to be provided.")))
    ∨ ((if get_patch_input_argument_use r = .REQUIRED
        then inputFalsy args.input = false else args.file.isSome = true) ∧
      execute r args = runRecipe r args) := by
  by_cases hreq : get_patch_input_argument_use r = .REQUIRED
  · by_cases hin : inputFalsy args.input = true
    · exact Or.inl ⟨hreq, hin, by simp [execute, hreq, hin]⟩
    · refine Or.inr (Or.inr ⟨?_, ?_⟩)
      · simp [hreq, Bool.not_eq_true] at hin ⊢
        exact hin
      · simp [execute, hreq, hin]
  · cases hfile : args.file with
    | none => exact Or.inr (Or.inl ⟨hreq, rfl, by simp [execute, hreq, hfile]⟩)
    | some v =>
      refine Or.inr (Or.inr ⟨by simp [hreq, hfile], by simp [execute, hreq, hfile]⟩)

/-! ## Concrete fixtures used by the witnesses -/

/-- Patcher behaviour exposing a patched output attribute. -/
def exRunPatched : CtorCall → PatcherOutcome :=
  fun _ => { file_patched := some (.doc 9), file := some (.doc 1) }

/-- Legacy patcher behaviour: no patched output attribute, and the
original document attribute records how many positional arguments arrived
in the single list-valued constructor parameter. -/
def exRunLegacy : CtorCall → PatcherOutcome :=
  fun c =>
    match c.argsPassing with
    | .listArg xs => { file := some (.int xs.length) }
    | .spread _ => { file := some (.int 99) }

/-- A recipe with input policy `REQUIRED` and a documented constructor. -/
def exReqRecipe : Recipe :=
  { input_argument := some .REQUIRED, initDoc := some "doc", run := exRunPatched }

/-- A recipe with no declared input policy (hence `IGNORED`), an
undocumented constructor and legacy behaviour. -/
def exLegacyRecipe : Recipe :=
  { input_argument := Option.none, initDoc := Option.none, run := exRunLegacy }

/-- A request carrying neither a raw input path nor a document handle. -/
def exEmptyArgs : Args := { recipe := "R" }

/-- A request carrying only a raw input path. -/
def exInputArgs : Args := { recipe := "R", input := some "in.ifc" }

/-- A request whose document entry is present but holds Python `None`,
with two positional arguments. -/
def exNullFileArgs : Args :=
  { recipe := "R", file := some Option.none,
    arguments := some [.str "x", .str "y"] }

/-! ## C1, C3, C4, C9: the execution engine -/

/-- C1: for every execution request, the validation rule of `execute`
depends solely on the input policy of the resolved recipe: when the policy is
`REQUIRED`, `execute` raises a `ValueError` if and only if the raw input
path is absent or empty (a document handle is not required); when the
policy is `SUPPORTED` or `IGNORED`, `execute` raises a `ValueError` if and
only if the request carries no document entry (a raw input path is not
required).  The failure is reported before the recipe is instantiated: it
does not depend on the patcher behaviour `run`. -/
theorem execute_validation_rule (r : Recipe) (args : Args) :
    (get_patch_input_argument_use r = .REQUIRED →
      ((∃ msg, execute r args = .error (.valueError msg)) ↔ inputFalsy args.input = true))
    ∧ (get_patch_input_argument_use r ≠ .REQUIRED →
      ((∃ msg, execute r args = .error (.valueError msg)) ↔ args.file = Option.none))
    ∧ ((∃ msg, execute r args = .error (.valueError msg)) →
        ∀ f, execute { r with run := f } args = execute r args) := by
  rcases execute_cases r args with ⟨hreq, hin, hrun⟩ | ⟨hreq, hfile, hrun⟩ | ⟨hok, hrun⟩
  · refine ⟨fun _ => ⟨fun _ => hin, fun _ => ⟨_, hrun⟩⟩, fun hne => absurd hreq hne, ?_⟩
    intro _ f
    have h2 : execute { r with run := f } args = .error (.valueError ("Recipe " ++
        args.recipe ++ " is requiring input argument to be provided.")) := by
      simp only [execute, get_patch_input_argument_use] at hreq ⊢
      simp [hreq, hin]
    rw [h2, hrun]
  · refine ⟨fun hr => absurd hr hreq, fun _ => ⟨fun _ => hfile, fun _ => ⟨_, hrun⟩⟩, ?_⟩
    intro _ f
    have h2 : execute { r with run := f } args = .error (.valueError ("Recipe " ++
        args.recipe ++ " is requiring file argument to be provided.")) := by
      simp only [execute, get_patch_input_argument_use] at hreq ⊢
      split
      · exact absurd (by assumption) hreq
      · simp [hfile]
    rw [h2, hrun]
  · have hnoval : ¬ ∃ msg, execute r args = .error (.valueError msg) := by
      rintro ⟨msg, hmsg⟩
      rw [hrun] at hmsg
      exact runRecipe_no_valueError r args msg hmsg
    by_cases hreq : get_patch_input_argument_use r = .REQUIRED
    · refine ⟨fun _ => ⟨fun h => absurd h hnoval, fun hin => ?_⟩,
        fun hne => absurd hreq hne, fun h => absurd h hnoval⟩
      rw [hreq] at hok
      simp only [if_pos rfl] at hok
      rw [hok] at hin
      exact absurd hin (by simp)
    · refine ⟨fun h => absurd h hreq, fun _ => ⟨fun h => absurd h hnoval, fun hfile => ?_⟩,
        fun h => absurd h hnoval⟩
      simp only [if_neg hreq] at hok
      rw [hfile] at hok
      exact absurd hok (by simp)

/-- Witness for C1 at a concrete input: a `REQUIRED` recipe with no raw
input path fails validation with a `ValueError`. -/
theorem execute_validation_rule_witness :
    ∃ msg, execute exReqRecipe exEmptyArgs = .error (.valueError msg) :=
  ((execute_validation_rule exReqRecipe exEmptyArgs).1 rfl).mpr rfl

/-- C3: for every request that passes validation, `execute` instantiates
the entry type of the recipe with the raw input path `args.get("input")`, the
document handle `args.get("file")` and the `"IFCPatch"` diagnostic sink,
spreading the positional `arguments` list into individual parameters when
the constructor has a docstring and passing it as one single list-valued
parameter when it has none; the result is extracted from the instance so
built. -/
theorem execute_ctor_dispatch (r : Recipe) (args : Args)
    (h : if get_patch_input_argument_use r = .REQUIRED
         then inputFalsy args.input = false else args.file.isSome = true) :
    execute r args =
      extractOutput (r.run
        { input := args.input
          file := args.file.join
          logger := "IFCPatch"
          argsPassing :=
            if r.initDoc.isSome then ArgsPassing.spread (args.arguments.getD [])
            else ArgsPassing.listArg (args.arguments.getD []) }) := by
  rcases execute_cases r args with ⟨hreq, hin, _⟩ | ⟨hreq, hfile, _⟩ | ⟨_, hrun⟩
  · rw [if_pos hreq] at h
    rw [h] at hin
    exact absurd hin (by simp)
  · rw [if_neg hreq] at h
    rw [hfile] at h
    exact absurd h (by simp)
  · exact hrun

/-- Witness for C3 at a concrete input: an undocumented legacy constructor
receives the two positional arguments as one list, observable as the
patched result counting them. -/
theorem execute_ctor_dispatch_witness :
    execute exLegacyRecipe exNullFileArgs = .ok (PyVal.int 2) :=
  (execute_ctor_dispatch exLegacyRecipe exNullFileArgs (by decide)).trans rfl

/-- Patcher behaviour exposing a patched output attribute but lacking the
original `file` attribute. -/
def exRunPatchedOnly : CtorCall → PatcherOutcome :=
  fun _ => { file_patched := some (.doc 9), file := Option.none }

/-- A recipe with default policy (`IGNORED`) whose instance, after
patching, exposes only `file_patched`. -/
def exPatchedOnlyRecipe : Recipe :=
  { input_argument := Option.none, initDoc := some "doc", run := exRunPatchedOnly }

/-- A request carrying a document handle. -/
def exFileArgs : Args := { recipe := "R", file := some (some 1) }

/-- Counterexample to C4 as stated: the `getattr` default on source line
106 is evaluated eagerly, so an instance that exposes `file_patched` but
lacks the `file` attribute makes `execute` raise `AttributeError` instead
of returning the exposed `file_patched` value. -/
theorem execute_eager_default_counterexample :
    (exPatchedOnlyRecipe.run (mkCtorCall exPatchedOnlyRecipe exFileArgs)).file_patched =
        some (PyVal.doc 9)
    ∧ execute exPatchedOnlyRecipe exFileArgs = .error (PyErr.attributeError "file")
    ∧ execute exPatchedOnlyRecipe exFileArgs ≠ .ok (PyVal.doc 9) := by
  have hcomp : execute exPatchedOnlyRecipe exFileArgs =
      .error (PyErr.attributeError "file") := rfl
  refine ⟨rfl, hcomp, ?_⟩
  intro h
  rw [hcomp] at h
  cases h

/-- C4 as amended: for every request that passes validation, when the
patcher instance lacks the `file` attribute `execute` raises
`AttributeError` (the `getattr` default `patcher.file` is evaluated
eagerly), even when `file_patched` is present; when the instance has the
`file` attribute, `execute` returns the `file_patched` attribute when the
instance exposes one and the `file` attribute value otherwise, and no
other value is ever returned on the success path. -/
theorem execute_result_attr_amended (r : Recipe) (args : Args)
    (h : if get_patch_input_argument_use r = .REQUIRED
         then inputFalsy args.input = false else args.file.isSome = true) :
    ((r.run (mkCtorCall r args)).file = Option.none →
      execute r args = .error (PyErr.attributeError "file"))
    ∧ (∀ w, (r.run (mkCtorCall r args)).file = some w →
        ∀ v : PyVal, execute r args = .ok v ↔
          ((r.run (mkCtorCall r args)).file_patched = some v ∨
           ((r.run (mkCtorCall r args)).file_patched = Option.none ∧ w = v))) := by
  rcases execute_cases r args with ⟨hreq, hin, _⟩ | ⟨hreq, hfile, _⟩ | ⟨_, hrun⟩
  · rw [if_pos hreq] at h
    rw [h] at hin
    exact absurd hin (by simp)
  · rw [if_neg hreq] at h
    rw [hfile] at h
    exact absurd h (by simp)
  · constructor
    · intro hf
      rw [hrun]
      unfold runRecipe extractOutput
      rw [hf]
    · intro w hf v
      rw [hrun]
      unfold runRecipe extractOutput
      rw [hf]
      cases hfp : (r.run (mkCtorCall r args)).file_patched with
      | some u => simp
      | none => simp

/-- Witness for the amended C4 at a concrete input: an instance exposing
both attributes makes `execute` return `file_patched`, preferring it over
`file`. -/
theorem execute_result_attr_amended_witness :
    execute exReqRecipe exInputArgs = .ok (PyVal.doc 9) :=
  ((execute_result_attr_amended exReqRecipe exInputArgs (by decide)).2
      (PyVal.doc 1) rfl (PyVal.doc 9)).mpr (Or.inl rfl)

/-- C9: for every recipe whose resolved policy is `SUPPORTED` or
`IGNORED`, validation tests only whether the request carries the document
key at all: a request whose document entry is present but holds Python
`None` passes validation, and the recipe is then instantiated with an
absent document handle. -/
theorem execute_null_document_passes (r : Recipe) (args : Args)
    (hpol : get_patch_input_argument_use r ≠ .REQUIRED)
    (hfile : args.file = some Option.none) :
    (∀ msg, execute r args ≠ .error (.valueError msg))
    ∧ execute r args = extractOutput (r.run (mkCtorCall r args))
    ∧ (mkCtorCall r args).file = Option.none := by
  rcases execute_cases r args with ⟨hreq, _, _⟩ | ⟨_, hnone, _⟩ | ⟨_, hrun⟩
  · exact absurd hreq hpol
  · rw [hfile] at hnone
    exact absurd hnone (by simp)
  · refine ⟨?_, hrun, ?_⟩
    · intro msg hmsg
      rw [hrun] at hmsg
      exact runRecipe_no_valueError r args msg hmsg
    · simp [mkCtorCall, hfile]

/-- Witness for C9 at a concrete input: a document entry holding `None`
passes validation and the patcher is built with no document handle. -/
theorem execute_null_document_passes_witness :
    execute exLegacyRecipe exNullFileArgs ≠
        .error (.valueError "Recipe R is requiring file argument to be provided.")
    ∧ (mkCtorCall exLegacyRecipe exNullFileArgs).file = Option.none := by
  have h := execute_null_document_passes exLegacyRecipe exNullFileArgs (by decide) rfl
  exact ⟨h.1 _, h.2.2⟩

/-! ## C5: the output writer -/

lemma fsLookup_fsErase_self (fs : FS) (p : String) :
    fsLookup (fsErase fs p) p = Option.none := by
  induction fs with
  | nil => rfl
  | cons kv rest ih =>
    by_cases h : kv.1 = p
    · simpa [fsErase, h] using ih
    · simpa [fsErase, fsLookup, h] using ih

lemma fsLookup_fsErase_ne (fs : FS) (p q : String) (h : q ≠ p) :
    fsLookup (fsErase fs p) q = fsLookup fs q := by
  induction fs with
  | nil => rfl
  | cons kv rest ih =>
    by_cases hk : kv.1 = p
    · have hpq : p ≠ q := fun hq => h hq.symm
      simp [fsErase, fsLookup, hk, hpq, ih]
    · by_cases hq : kv.1 = q
      · simp [fsErase, fsLookup, hk, hq, h]
      · simp [fsErase, fsLookup, hk, hq, ih]

lemma fsLookup_fsSet_self (fs : FS) (p c : String) :
    fsLookup (fsSet fs p c) p = some c := by
  simp [fsSet, fsLookup]

lemma fsLookup_fsSet_ne (fs : FS) (p q c : String) (h : q ≠ p) :
    fsLookup (fsSet fs p c) q = fsLookup fs q := by
  have : p ≠ q := fun hq => h hq.symm
  simp [fsSet, fsLookup, this, fsLookup_fsErase_ne fs p q h]

/-- C5: `write` performs exactly the three-way dispatch: an absent result
leaves the filesystem untouched (in particular no mutation at the target
path); a textual result naming an existing file relocates that file to the
target path, after which the content is present at the target and, when
the source differs from the target, gone from the source; any other
textual result is written verbatim as the literal content of the target
file; a document-handle result delegates to the own write
capability of the handle targeting the path. -/
theorem write_three_way_dispatch (docWriter : Nat → String → FS → FS)
    (filepath : String) (fs : FS) :
    (write docWriter .none filepath fs = fs
      ∧ fsLookup (write docWriter .none filepath fs) filepath = fsLookup fs filepath)
    ∧ (∀ s c, fsLookup fs s = some c →
        fsLookup (write docWriter (.str s) filepath fs) filepath = some c
        ∧ (s ≠ filepath → fsLookup (write docWriter (.str s) filepath fs) s = Option.none))
    ∧ (∀ s, fsLookup fs s = Option.none →
        fsLookup (write docWriter (.str s) filepath fs) filepath = some s)
    ∧ (∀ d, write docWriter (.doc d) filepath fs = docWriter d filepath fs) := by
  refine ⟨⟨rfl, rfl⟩, ?_, ?_, fun d => rfl⟩
  · intro s c hs
    have hex : fsExists fs s = true := by simp [fsExists, hs]
    constructor
    · simp [write, hex, fsMove, hs, fsLookup_fsSet_self]
    · intro hne
      have hfp : s ≠ filepath := hne
      simp only [write, hex, if_true, fsMove, hs]
      rw [fsLookup_fsSet_ne _ _ _ _ hfp, fsLookup_fsErase_self]
  · intro s hs
    have hex : fsExists fs s = false := by simp [fsExists, hs]
    simp [write, hex, fsLookup_fsSet_self]

/-- Witness for C5 at concrete inputs: moving an existing temporary file
and writing literal text. -/
theorem write_three_way_dispatch_witness :
    (fsLookup (write (fun _ _ fs => fs) (.str "tmp") "out" [("tmp", "body")]) "out" =
        some "body"
      ∧ fsLookup (write (fun _ _ fs => fs) (.str "tmp") "out" [("tmp", "body")]) "tmp" =
        Option.none)
    ∧ fsLookup (write (fun _ _ fs => fs) (.str "hello world") "out" []) "out" =
        some "hello world" := by
  have h := write_three_way_dispatch (fun _ _ fs => fs) "out" [("tmp", "body")]
  have h2 := write_three_way_dispatch (fun _ _ fs => fs) "out" ([] : FS)
  have hm := h.2.1 "tmp" "body" rfl
  exact ⟨⟨hm.1, hm.2 (by decide)⟩, h2.2.2.1 "hello world" rfl⟩

/-! ## Helper lemmas about the schema extractor

The docstring loop only ever touches the `description` and `filter_glob`
keys of the parameter entries; their name, default, generic container,
type and enumerated values survive untouched.  `entryCore` projects the
surviving fields. -/

/-- The fields of a parameter entry the docstring loop never modifies. -/
def entryCore (e : InputEntry) :
    String × Option PyVal × Option String × Option TypeField × Option (List PyVal) :=
  (e.name, e.default, e.generic_type, e.type, e.enum_items)

lemma map_eq_of_pointwise {α β : Type} (f g : α → β) (hfg : ∀ a, f a = g a)
    (l : List α) : l.map f = l.map g := by
  induction l with
  | nil => rfl
  | cons a t ih => simp [hfg a, ih]

lemma map_entryCore_of_update (f : InputEntry → InputEntry)
    (hf : ∀ e, entryCore (f e) = entryCore e) (l : List InputEntry) :
    (l.map f).map entryCore = l.map entryCore := by
  induction l with
  | nil => rfl
  | cons a t ih => simp [hf a, ih]

lemma map_entryCore_setDescription (l : List InputEntry) (n d : String) :
    (setDescription l n d).map entryCore = l.map entryCore :=
  map_entryCore_of_update _
    (fun e => by by_cases h : e.name = n <;> simp [entryCore, h]) l

lemma map_entryCore_setFilterGlob (l : List InputEntry) (n g : String) :
    (setFilterGlob l n g).map entryCore = l.map entryCore :=
  map_entryCore_of_update _
    (fun e => by by_cases h : e.name = n <;> simp [entryCore, h]) l

/-- One docstring-loop iteration preserves the core of every entry. -/
lemma stepLine_inputs_core (st : ParseState) (i : Nat) (l : String) (st2 : ParseState)
    (h : stepLine st i l = .ok st2) :
    st2.inputs.map entryCore = st.inputs.map entryCore := by
  simp only [stepLine] at h
  repeat' split at h
  all_goals cases h
  all_goals
    simp [map_entryCore_setDescription, map_entryCore_setFilterGlob]

/-- The whole docstring loop preserves the core of every entry. -/
lemma foldLines_inputs_core (ls : List String) :
    ∀ (st : ParseState) (i : Nat) (st2 : ParseState),
      foldLines st i ls = .ok st2 →
      st2.inputs.map entryCore = st.inputs.map entryCore := by
  induction ls with
  | nil =>
    intro st i st2 h
    cases h
    rfl
  | cons l rest ih =>
    intro st i st2 h
    unfold foldLines at h
    cases hstep : stepLine st i l with
    | error e => rw [hstep] at h; cases h
    | ok stm =>
      rw [hstep] at h
      exact (ih stm (i + 1) st2 h).trans (stepLine_inputs_core st i l stm hstep)

/-- The entries `_extract_docs` returns have the same cores, in the same
order, as the entries built from the retained parameters. -/
lemma extract_docs_inputs_core (cls : Cls) (mn : String) (bp : Option (List String))
    (m : Method) (d : Docs)
    (hm : findMethod cls.methods mn = some m)
    (hd : _extract_docs cls mn bp = .ok d) :
    d.inputs.map entryCore =
      ((retainedParams (bp.getD []) m.params).map mkEntry).map entryCore := by
  unfold _extract_docs at hd
  rw [hm] at hd
  dsimp only at hd
  cases hdoc : m.doc with
  | none =>
    rw [hdoc] at hd
    cases hd
    rfl
  | some doc =>
    rw [hdoc] at hd
    dsimp only at hd
    cases hfold : foldLines
        { inputs := (retainedParams (bp.getD []) m.params).map mkEntry } 0
        (pySplit '\n' doc) with
    | error e => rw [hfold] at hd; cases hd
    | ok st =>
      rw [hfold] at hd
      cases hd
      exact foldLines_inputs_core _ _ _ _ hfold

/-- The branch chain touches only the `type` and `enum_items` keys. -/
lemma applyUnwrapped_preserves (e : InputEntry) (h1 : TypeHint) :
    (applyUnwrapped e h1).name = e.name ∧ (applyUnwrapped e h1).default = e.default ∧
    (applyUnwrapped e h1).generic_type = e.generic_type := by
  unfold applyUnwrapped
  cases h1 with
  | plain n => dsimp only; split <;> exact ⟨rfl, rfl, rfl⟩
  | union ms => exact ⟨rfl, rfl, rfl⟩
  | literal items => dsimp only; split <;> exact ⟨rfl, rfl, rfl⟩
  | generic n b rest => dsimp only; split <;> exact ⟨rfl, rfl, rfl⟩

/-- The function `normalizeHint` touches only the `generic_type`, `type` and
`enum_items` keys. -/
lemma normalizeHint_preserves (e : InputEntry) (h : TypeHint) :
    (normalizeHint e h).name = e.name ∧ (normalizeHint e h).default = e.default := by
  unfold normalizeHint
  cases h with
  | plain n => exact ⟨(applyUnwrapped_preserves _ _).1, (applyUnwrapped_preserves _ _).2.1⟩
  | union ms => exact ⟨(applyUnwrapped_preserves _ _).1, (applyUnwrapped_preserves _ _).2.1⟩
  | literal items =>
    exact ⟨(applyUnwrapped_preserves _ _).1, (applyUnwrapped_preserves _ _).2.1⟩
  | generic n a0 rest =>
    exact ⟨(applyUnwrapped_preserves _ _).1, (applyUnwrapped_preserves _ _).2.1⟩

/-- The name and captured default of the entry built for a parameter. -/
lemma mkEntry_name_default (p : Param) :
    (mkEntry p).name = p.name ∧
    (mkEntry p).default =
      (match p.default with
       | some v => if isPrimitiveScalar v then some v else Option.none
       | Option.none => (Option.none : Option PyVal)) := by
  unfold mkEntry
  cases p.hint with
  | none => exact ⟨rfl, rfl⟩
  | some h =>
    dsimp only
    exact ⟨(normalizeHint_preserves _ h).1, (normalizeHint_preserves _ h).2⟩

/-! ## Fixtures for the schema-extraction witnesses -/

/-- The introspected constructor `(self, a: str, b: int = 5)`. -/
def exM6 : Method :=
  { params := [ { name := "self" },
                { name := "a", hint := some (.plain "str") },
                { name := "b", default := some (.int 5), hint := some (.plain "int") } ] }

/-- A class carrying `exM6` as its constructor. -/
def exCls6 : Cls := { methods := [("__init__", exM6)] }

/-- The dictionary `_extract_docs` returns for `exCls6`. -/
def exDocs6 : Docs :=
  { cls := exCls6,
    inputs := [ { name := "a", type := some (.single "str") },
                { name := "b", default := some (.int 5),
                  type := some (.single "int") } ] }

/-- A parameter hinted `Union[str, int]`. -/
def exPU : Param := { name := "u", hint := some (.union [.plain "str", .plain "int"]) }

/-- A parameter hinted `Literal["x", "y"]`. -/
def exPL : Param := { name := "lit", hint := some (.literal [.str "x", .str "y"]) }

/-- A parameter hinted `list[str]`. -/
def exPG : Param := { name := "g", hint := some (.generic "list" (.plain "str") []) }

/-- The entry extracted for `exPU`. -/
def exEU : InputEntry := { name := "u", type := some (.multiple ["str", "int"]) }

/-- The entry extracted for `exPL`. -/
def exEL : InputEntry :=
  { name := "lit", type := some (.single "Literal"),
    enum_items := some [.str "x", .str "y"] }

/-- The entry extracted for `exPG`. -/
def exEG : InputEntry :=
  { name := "g", generic_type := some "list", type := some (.single "str") }

/-- A constructor with a union-hinted, a literal-hinted and a
container-hinted parameter. -/
def exM7 : Method := { params := [{ name := "self" }, exPU, exPL, exPG] }

/-- A class carrying `exM7` as its constructor. -/
def exCls7 : Cls := { methods := [("__init__", exM7)] }

/-- The dictionary `_extract_docs` returns for `exCls7`. -/
def exDocs7 : Docs := { cls := exCls7, inputs := [exEU, exEL, exEG] }

/-! ## C6, C7: parameter enumeration and type-hint normalization -/

/-- C6: schema extraction enumerates parameters in declaration order,
excluding the implicit `self` parameter and every name in the excluded
set, and records the default value of a parameter if and only if that default
is a primitive scalar (string, number or bool). -/
theorem extract_docs_param_enumeration (cls : Cls) (mn : String)
    (bp : Option (List String)) (m : Method) (d : Docs)
    (hm : findMethod cls.methods mn = some m)
    (hd : _extract_docs cls mn bp = .ok d) :
    d.inputs.map (fun e => (e.name, e.default)) =
      (m.params.filter (fun p => decide (p.name ≠ "self" ∧ p.name ∉ bp.getD []))).map
        (fun p => (p.name,
          match p.default with
          | some v => if isPrimitiveScalar v then some v else Option.none
          | Option.none => (Option.none : Option PyVal))) := by
  have hc := extract_docs_inputs_core cls mn bp m d hm hd
  have hproj : ∀ l : List InputEntry,
      l.map (fun e => (e.name, e.default)) =
        (l.map entryCore).map (fun q => (q.1, q.2.1)) := by
    intro l
    rw [List.map_map]
    rfl
  rw [hproj d.inputs, hc, ← hproj, List.map_map]
  exact map_eq_of_pointwise _ _
    (fun p => by
      have h1 := mkEntry_name_default p
      simp only [Function.comp_apply, h1.1, h1.2])
    _

/-- Witness for C6 at the concrete constructor `(self, a: str, b: int = 5)`:
the schema preserves the order `[a, b]`, captures `5` as the default of
`b` and captures no default for `a`. -/
theorem extract_docs_param_enumeration_witness :
    _extract_docs exCls6 "__init__" Option.none = .ok exDocs6
    ∧ exDocs6.inputs.map (fun e => (e.name, e.default)) =
        [("a", Option.none), ("b", some (PyVal.int 5))] :=
  ⟨rfl,
    (extract_docs_param_enumeration exCls6 "__init__" Option.none exM6 exDocs6
      rfl rfl).trans rfl⟩

lemma applyUnwrapped_generic_type (e : InputEntry) (h1 : TypeHint) :
    (applyUnwrapped e h1).generic_type = e.generic_type :=
  (applyUnwrapped_preserves e h1).2.2

/-- C7: for every retained parameter with a resolvable static type hint,
schema extraction normalizes the hint as follows: a union hint yields a
`type` field equal to the ordered list of the member type names of the union; an
enumerated-literal hint yields `type = "Literal"` together with
`enum_items` equal to the ordered list of accepted literal values; a
parameterized container hint records the container name and unwraps the
`type` field to the element type; any other hint yields the plain
name of the hint; a parameter with no resolvable hint receives no type entry. -/
theorem extract_docs_hint_normalization (cls : Cls) (mn : String)
    (bp : Option (List String)) (m : Method) (d : Docs)
    (hm : findMethod cls.methods mn = some m)
    (hd : _extract_docs cls mn bp = .ok d)
    (i : Nat) (p : Param) (e : InputEntry)
    (hp : (retainedParams (bp.getD []) m.params).get? i = some p)
    (he : d.inputs.get? i = some e) :
    (p.hint = Option.none →
       e.type = Option.none ∧ e.generic_type = Option.none ∧ e.enum_items = Option.none)
    ∧ (∀ ms, p.hint = some (.union ms) →
         e.generic_type = Option.none ∧ e.type = some (.multiple (ms.map TypeHint.pyName)))
    ∧ (∀ items, p.hint = some (.literal items) →
         e.generic_type = Option.none ∧ e.type = some (.single "Literal")
           ∧ e.enum_items = some items)
    ∧ (∀ n, p.hint = some (.plain n) → n ≠ "Literal" →
         e.generic_type = Option.none ∧ e.type = some (.single n)
           ∧ e.enum_items = Option.none)
    ∧ (∀ cn a0 rest, p.hint = some (.generic cn a0 rest) →
         e.generic_type = some cn
         ∧ (∀ ms2, a0 = .union ms2 → e.type = some (.multiple (ms2.map TypeHint.pyName)))
         ∧ (∀ items, a0 = .literal items →
             e.type = some (.single "Literal") ∧ e.enum_items = some items)
         ∧ (∀ n2, a0 = .plain n2 → n2 ≠ "Literal" →
             e.type = some (.single n2) ∧ e.enum_items = Option.none)) := by
  have hc := extract_docs_inputs_core cls mn bp m d hm hd
  have h1 : (d.inputs.map entryCore).get? i = some (entryCore e) := by
    rw [List.get?_map, he]
    rfl
  have h2 : (((retainedParams (bp.getD []) m.params).map mkEntry).map entryCore).get? i
      = some (entryCore (mkEntry p)) := by
    rw [List.get?_map, List.get?_map, hp]
    rfl
  rw [hc, h2] at h1
  have hcore : entryCore e = entryCore (mkEntry p) := (Option.some.inj h1).symm
  simp only [entryCore, Prod.mk.injEq] at hcore
  obtain ⟨hname, hdef, hgt, htype, henum⟩ := hcore
  refine ⟨?_, ?_, ?_, ?_, ?_⟩
  · intro hh
    rw [htype, hgt, henum]
    simp [mkEntry, hh]
  · intro ms hh
    rw [hgt, htype]
    simp [mkEntry, hh, normalizeHint, applyUnwrapped]
  · intro items hh
    rw [hgt, htype, henum]
    simp [mkEntry, hh, normalizeHint, applyUnwrapped, TypeHint.pyName,
      TypeHint.literalArgs]
  · intro n hh hn
    rw [hgt, htype, henum]
    simp [mkEntry, hh, normalizeHint, applyUnwrapped, TypeHint.pyName, hn]
  · intro cn a0 rest hh
    refine ⟨?_, ?_, ?_, ?_⟩
    · rw [hgt]
      simp [mkEntry, hh, normalizeHint, applyUnwrapped_generic_type]
    · intro ms2 ha
      rw [htype]
      simp [mkEntry, hh, ha, normalizeHint, applyUnwrapped]
    · intro items ha
      rw [htype, henum]
      simp [mkEntry, hh, ha, normalizeHint, applyUnwrapped, TypeHint.pyName,
        TypeHint.literalArgs]
    · intro n2 ha hn
      rw [htype, henum]
      simp [mkEntry, hh, ha, normalizeHint, applyUnwrapped, TypeHint.pyName, hn]

/-- Witness for C7 on a concrete constructor with a union-hinted, a
literal-hinted and a container-hinted parameter. -/
theorem extract_docs_hint_normalization_witness :
    _extract_docs exCls7 "__init__" Option.none = .ok exDocs7
    ∧ exDocs7.inputs.map (fun e => e.type) =
        [some (.multiple ["str", "int"]), some (.single "Literal"),
          some (.single "str")]
    ∧ exDocs7.inputs.map (fun e => e.generic_type) =
        [Option.none, Option.none, some "list"] := by
  refine ⟨rfl, ?_, rfl⟩
  have hu := (extract_docs_hint_normalization exCls7 "__init__" Option.none exM7 exDocs7
      rfl rfl 0 exPU exEU rfl rfl).2.1 [.plain "str", .plain "int"] rfl
  have hl := (extract_docs_hint_normalization exCls7 "__init__" Option.none exM7 exDocs7
      rfl rfl 1 exPL exEL rfl rfl).2.2.1 [.str "x", .str "y"] rfl
  have hg := (extract_docs_hint_normalization exCls7 "__init__" Option.none exM7 exDocs7
      rfl rfl 2 exPG exEG rfl rfl).2.2.2.2 "list" (.plain "str") [] rfl
  have hg2 := hg.2.2.2 "str" rfl (by decide)
  show [exEU.type, exEL.type, exEG.type] = _
  rw [hu.2, hl.2.1, hg2.1]
  rfl

/-! ## C8: the `:param` line rule -/

/-- Modelled from the spec wording of C8, for comparison with the code:
the middle field with one leading occurrence of the tag prefix stripped
(the code instead removes every occurrence via `str.replace`). -/
def stripLeadingTag (tag s : String) : String :=
  if pyStartsWith tag s then String.mk (s.toList.drop tag.toList.length) else s

/-- A parser state knowing the single parameter `x`. -/
def exStX : ParseState := { inputs := [{ name := "x" }] }

/-- Counterexample to C8 as stated: on the line `:param param x: desc` the
code computes the target name by removing every occurrence of `param `
from the middle field, obtaining `x`, and attaches the description to the
known parameter `x`; under the rule of the claim the target name would be
`param x`, which is unknown, so the claim predicts that nothing changes —
yet the schema changes.  Additionally, a `:param` line that is the
first line of a docstring is consumed as the title and attaches nothing, even
when it names a known parameter. -/
theorem param_tag_strip_counterexample :
    stripLeadingTag "param "
        (pyStrip ((pySplit ':' (pyStrip ":param param x: desc")).getD 1 "")) = "param x"
    ∧ knownParam exStX.inputs "param x" = false
    ∧ stepLine exStX 1 ":param param x: desc" ≠ .ok exStX
    ∧ stepLine exStX 1 ":param param x: desc" =
        .ok { exStX with inputs := [{ name := "x", description := some "desc" }] }
    ∧ stepLine exStX 0 ":param x: desc" =
        .ok { exStX with title := some ":param x: desc" } := by
  have hcomp : stepLine exStX 1 ":param param x: desc" =
      .ok { exStX with inputs := [{ name := "x", description := some "desc" }] } := rfl
  refine ⟨rfl, rfl, ?_, hcomp, rfl⟩
  intro h
  rw [hcomp] at h
  exact absurd (Except.ok.inj h) (by decide)

/-- C8 as amended: for every docstring line beginning with `:param` other
than the first line, the parser splits the stripped line on `:`, computes
the target name from the middle field by stripping it and removing every
occurrence of `param `, and attaches the stripped third field as that
description of that parameter if and only if the computed name matches a known
parameter; a line whose computed name is unknown changes nothing. -/
theorem param_tag_line_amended (st : ParseState) (i : Nat) (rawLine : String) (f1 : String)
    (hi : i ≠ 0)
    (hret : pyStartsWith ":return:" (pyStrip rawLine) = false)
    (hpar : pyStartsWith ":param" (pyStrip rawLine) = true)
    (hf1 : (pySplit ':' (pyStrip rawLine)).get? 1 = some f1) :
    (knownParam st.inputs (pyRemoveAll "param " (pyStrip f1)) = false →
      stepLine st i rawLine = .ok st)
    ∧ (∀ f2, knownParam st.inputs (pyRemoveAll "param " (pyStrip f1)) = true →
        (pySplit ':' (pyStrip rawLine)).get? 2 = some f2 →
        stepLine st i rawLine =
          .ok { st with inputs := setDescription st.inputs (pyRemoveAll "param " (pyStrip f1)) (pyStrip f2) }) := by
  constructor
  · intro hunk
    rw [List.get?_eq_getElem?] at hf1
    simp [stepLine, hi, hret, hpar, hf1, hunk]
  · intro f2 hknown hf2
    rw [List.get?_eq_getElem?] at hf1 hf2
    simp [stepLine, hi, hret, hpar, hf1, hknown, hf2]

/-- Witness for the amended C8 at a concrete line naming a known
parameter. -/
theorem param_tag_line_amended_witness :
    stepLine exStX 1 ":param x: about x" =
      .ok { exStX with inputs := [{ name := "x", description := some "about x" }] } :=
  (param_tag_line_amended exStX 1 ":param x: about x" "param x" (by decide)
    rfl rfl rfl).2 " about x" rfl rfl

/-! ## C10 and C2: exceptions escaping `extract_docs` -/

/-- Every exception the docstring loop body raises is `IndexError`. -/
lemma stepLine_error_kind (st : ParseState) (i : Nat) (l : String) (e : PyErr)
    (h : stepLine st i l = .error e) : e = PyErr.indexError := by
  simp only [stepLine] at h
  repeat' split at h
  all_goals first | (cases h; rfl) | cases h

/-- Every exception the docstring loop raises is `IndexError`. -/
lemma foldLines_error_kind (ls : List String) :
    ∀ (st : ParseState) (i : Nat) (e : PyErr),
      foldLines st i ls = .error e → e = PyErr.indexError := by
  induction ls with
  | nil => intro st i e h; cases h
  | cons l rest ih =>
    intro st i e h
    unfold foldLines at h
    cases hstep : stepLine st i l with
    | error e2 =>
      rw [hstep] at h
      cases h
      exact stepLine_error_kind st i l _ hstep
    | ok st2 =>
      rw [hstep] at h
      exact ih st2 (i + 1) e h

/-- A line that makes the loop body raise in every state makes the whole
loop raise. -/
lemma foldLines_err_of_bad_line (ls : List String) :
    ∀ (st : ParseState) (i k : Nat) (line : String),
      ls.get? k = some line →
      (∀ st2 : ParseState, stepLine st2 (i + k) line = .error PyErr.indexError) →
      ∃ e, foldLines st i ls = .error e := by
  induction ls with
  | nil =>
    intro st i k line h _
    simp at h
  | cons l rest ih =>
    intro st i k line hget hbad
    cases k with
    | zero =>
      have hl : l = line := by simpa using hget
      subst hl
      refine ⟨PyErr.indexError, ?_⟩
      have hb := hbad st
      rw [Nat.add_zero] at hb
      simp only [foldLines]
      rw [hb]
    | succ k2 =>
      have hget2 : rest.get? k2 = some line := by simpa using hget
      cases hstep : stepLine st i l with
      | error e2 =>
        exact ⟨e2, by simp only [foldLines]; rw [hstep]⟩
      | ok st2 =>
        obtain ⟨e3, he3⟩ := ih st2 (i + 1) k2 line hget2 (by
          intro st3
          have hb := hbad st3
          rwa [show i + (k2 + 1) = (i + 1) + k2 by omega] at hb)
        exact ⟨e3, by simp only [foldLines]; rw [hstep]; exact he3⟩

/-- A `:return:` line with no colon after the tag makes the loop body
raise `IndexError` at every non-initial index, in every state. -/
lemma stepLine_return_short (st : ParseState) (i : Nat) (line : String)
    (hi : i ≠ 0)
    (hret : pyStartsWith ":return:" (pyStrip line) = true)
    (hlen : (pySplit ':' (pyStrip line)).length < 4) :
    stepLine st i line = .error PyErr.indexError := by
  have h3 : (pySplit ':' (pyStrip line)).get? 3 = Option.none :=
    List.get?_eq_none.mpr (by omega)
  simp only [stepLine]
  rw [if_neg hi, if_pos hret]
  split
  all_goals try rfl
  next n d hnd =>
    rw [h3] at hnd
    exact absurd hnd (by simp)

/-- A docstring-loop failure inside `_extract_docs` propagates. -/
lemma _extract_docs_fold_error (cls : Cls) (mn : String) (bp : Option (List String))
    (m : Method) (doc : String) (e : PyErr)
    (hm : findMethod cls.methods mn = some m) (hdoc : m.doc = some doc)
    (hfold : foldLines
        { inputs := (retainedParams (bp.getD []) m.params).map mkEntry } 0
        (pySplit '\n' doc) = .error e) :
    _extract_docs cls mn bp = .error e := by
  unfold _extract_docs
  rw [hm]
  dsimp only
  rw [hdoc]
  dsimp only
  rw [hfold]

/-- An introspection failure that is neither `AttributeError` nor
`ModuleNotFoundError` propagates through `extract_docs`. -/
lemma extract_docs_propagate (m : Module) (cn mn : String) (bp : Option (List String))
    (e : PyErr)
    (hatt : extract_docs_attempt m cn mn bp = .error e)
    (hnotattr : ∀ s, e ≠ .attributeError s)
    (hnotmnf : ∀ s, e ≠ .moduleNotFoundError s) :
    extract_docs (.ok m) cn mn bp = .error e := by
  unfold extract_docs
  dsimp only
  rw [hatt]
  cases e with
  | attributeError s => exact absurd rfl (hnotattr s)
  | moduleNotFoundError s => exact absurd rfl (hnotmnf s)
  | valueError s => rfl
  | indexError => rfl
  | otherError s => rfl

/-- A one-class module whose constructor has the given docstring. -/
def mkRetModule (cls_name doc : String) : Module :=
  { classes := [(cls_name,
      { methods := [("__init__",
          { params := [{ name := "self" }], doc := some doc })] })] }

/-- The constructor docstring `:return: result` as its sole (hence first)
line. -/
def exClsRet0 : Cls :=
  { methods := [("__init__",
      { params := [{ name := "self" }], doc := some ":return: result" })] }

/-- A module carrying `exClsRet0`. -/
def exModRet0 : Module := { classes := [("Patcher", exClsRet0)] }

/-- The dictionary extraction returns for `exModRet0`. -/
def exDocsRet0 : Docs :=
  { cls := exClsRet0, name := some ":return: result",
    description := some "", inputs := [] }

/-- Counterexample to C10 as stated: a docstring consisting of the single
line `:return: result` contains a line beginning with `:return:` that
splits on `:` into fewer than four fields, yet schema extraction raises
nothing: the line is at index 0, so it is consumed as the title. -/
theorem return_tag_first_line_counterexample :
    pyStartsWith ":return:" (pyStrip ":return: result") = true
    ∧ (pySplit ':' (pyStrip ":return: result")).length < 4
    ∧ extract_docs (.ok exModRet0) "Patcher" "__init__" Option.none =
        .ok (some exDocsRet0) :=
  ⟨rfl, by decide, rfl⟩

/-- C10 as amended: a docstring containing, at any line index other than
the first, a line beginning with `:return:` that splits on `:` into fewer
than four fields makes the unguarded parser access to the fourth field
raise `IndexError`, and that exception is not among the kinds
`extract_docs` catches: it escapes to the caller. -/
theorem return_tag_uncaught_amended (cls_name doc : String) (k : Nat) (line : String)
    (hk : 1 ≤ k)
    (hline : (pySplit '\n' doc).get? k = some line)
    (hret : pyStartsWith ":return:" (pyStrip line) = true)
    (hlen : (pySplit ':' (pyStrip line)).length < 4) :
    extract_docs (.ok (mkRetModule cls_name doc)) cls_name "__init__" Option.none =
      .error PyErr.indexError := by
  have hbad : ∀ st2 : ParseState, stepLine st2 (0 + k) line = .error PyErr.indexError :=
    fun st2 => stepLine_return_short st2 (0 + k) line (by omega) hret hlen
  obtain ⟨e, he⟩ := foldLines_err_of_bad_line (pySplit '\n' doc)
    { inputs := [] } 0 k line hline hbad
  have hek : e = PyErr.indexError := foldLines_error_kind _ _ _ _ he
  subst hek
  have hatt : extract_docs_attempt (mkRetModule cls_name doc) cls_name "__init__"
      Option.none = .error PyErr.indexError := by
    unfold extract_docs_attempt mkRetModule
    simp only [findCls, if_pos rfl]
    exact _extract_docs_fold_error _ _ _ _ doc _ rfl rfl he
  exact extract_docs_propagate _ _ _ _ _ hatt
    (fun s h => by cases h) (fun s h => by cases h)

/-- Witness for the amended C10: the three-line docstring
`Title`, blank, `:return: result` makes `extract_docs` raise
`IndexError`. -/
theorem return_tag_uncaught_amended_witness :
    extract_docs (.ok (mkRetModule "Patcher" "Title\n\n:return: result")) "Patcher"
        "__init__" Option.none = .error PyErr.indexError :=
  return_tag_uncaught_amended "Patcher" "Title\n\n:return: result" 2 ":return: result"
    (by decide) rfl rfl (by decide)

/-- A module whose constructor docstring has a malformed `:return:` line
at index 2. -/
def exModC2 : Module :=
  { classes := [("Patcher",
      { methods := [("__init__",
          { params := [{ name := "self" }], doc := some "T\n\n:return: broken" })] })] }

/-- Counterexample to C2 as stated: there is an input on which
`extract_docs` raises to its caller instead of returning metadata or
nothing: a constructor docstring with a malformed `:return:` line makes it
raise `IndexError`. -/
theorem extract_docs_can_raise :
    extract_docs (.ok exModC2) "Patcher" "__init__" Option.none =
      .error PyErr.indexError := rfl

/-- C2 as amended: `extract_docs` suppresses exactly a
`ModuleNotFoundError` from module loading and an `AttributeError` (or
`ModuleNotFoundError`) from introspection, returning nothing after a
diagnostic; on a successful introspection it returns the full metadata
dictionary; every other exception (for example the `IndexError` of C10, or
a load failure that is not a `ModuleNotFoundError`) propagates to the
caller. -/
theorem extract_docs_graceful_amended (load : Except PyErr Module)
    (cls_name method_name : String) (bp : Option (List String)) :
    (∀ msg, load = .error (.moduleNotFoundError msg) →
      extract_docs load cls_name method_name bp = .ok Option.none)
    ∧ (∀ m, load = .ok m →
        (∀ msg, extract_docs_attempt m cls_name method_name bp =
            .error (.attributeError msg) →
          extract_docs load cls_name method_name bp = .ok Option.none)
        ∧ (∀ d, extract_docs_attempt m cls_name method_name bp = .ok d →
          extract_docs load cls_name method_name bp = .ok (some d)))
    ∧ (∀ e, extract_docs load cls_name method_name bp = .error e →
        (load = .error e ∧ ∀ msg, e ≠ .moduleNotFoundError msg)
        ∨ (∃ m, load = .ok m
            ∧ extract_docs_attempt m cls_name method_name bp = .error e
            ∧ (∀ msg, e ≠ .attributeError msg)
            ∧ (∀ msg, e ≠ .moduleNotFoundError msg))) := by
  refine ⟨?_, ?_, ?_⟩
  · intro msg hl
    subst hl
    rfl
  · intro m hl
    subst hl
    constructor
    · intro msg hatt
      unfold extract_docs
      dsimp only
      rw [hatt]
    · intro d hatt
      unfold extract_docs
      dsimp only
      rw [hatt]
  · intro e he
    cases hl : load with
    | error e2 =>
      rw [hl] at he
      unfold extract_docs at he
      cases e2 with
      | moduleNotFoundError s => dsimp only at he; cases he
      | valueError s =>
        dsimp only at he
        cases he
        exact Or.inl ⟨rfl, fun msg h => by cases h⟩
      | attributeError s =>
        dsimp only at he
        cases he
        exact Or.inl ⟨rfl, fun msg h => by cases h⟩
      | indexError =>
        dsimp only at he
        cases he
        exact Or.inl ⟨rfl, fun msg h => by cases h⟩
      | otherError s =>
        dsimp only at he
        cases he
        exact Or.inl ⟨rfl, fun msg h => by cases h⟩
    | ok m =>
      rw [hl] at he
      unfold extract_docs at he
      dsimp only at he
      cases hatt : extract_docs_attempt m cls_name method_name bp with
      | ok d =>
        rw [hatt] at he
        cases he
      | error e3 =>
        rw [hatt] at he
        cases e3 with
        | attributeError s => dsimp only at he; cases he
        | moduleNotFoundError s => dsimp only at he; cases he
        | valueError s =>
          dsimp only at he
          cases he
          exact Or.inr ⟨m, rfl, hatt, by simp, by simp⟩
        | indexError =>
          dsimp only at he
          cases he
          exact Or.inr ⟨m, rfl, hatt, by simp, by simp⟩
        | otherError s =>
          dsimp only at he
          cases he
          exact Or.inr ⟨m, rfl, hatt, by simp, by simp⟩

/-- Witness for the amended C2: a `ModuleNotFoundError` load failure
yields nothing instead of raising. -/
theorem extract_docs_graceful_amended_witness :
    extract_docs (.error (.moduleNotFoundError "missing")) "Patcher" "__init__"
        Option.none = .ok Option.none :=
  (extract_docs_graceful_amended (.error (.moduleNotFoundError "missing")) "Patcher"
      "__init__" Option.none).1 "missing" rfl

end IfcPatch
